import Mathlib

/-!
Verification development for the chat-room broadcast server
(`src/examples/chat_room.rs`).

The Rust program is a tokio TCP chat server.  Its sequential core —
the `Message` model, the `ChatRoom` registry with `join` / `leave` /
`broadcast`, the connection handler's name negotiation and its
receive loop — is embedded shallowly below.  Asynchronous I/O results
(socket reads, accept results, send outcomes) are passed in as
explicit values; per-peer mpsc channels are modelled as FIFO lists of
messages together with a `closed` flag (a closed channel is one whose
receiver was dropped, so `send` fails on it).  The `DashMap` registry
is modelled as an association list from socket address (a `Nat`) to
channel; `DashMap::insert` replaces an existing entry.
-/

/-- Socket addresses (`SocketAddr`) are abstracted to naturals. -/
abbrev Addr := Nat

/-- `const MAX_MESSAGES: usize = 128`, the mpsc channel capacity.
The capacity only influences backpressure (a full queue blocks the
broadcaster), which is scheduling behaviour outside this sequential
embedding; queue contents themselves are modelled exactly. -/
def MAX_MESSAGES : Nat := 128

/-- `struct ChatMessage { from: String, content: String }`
(`from` is a Lean keyword, hence the underscore). -/
structure ChatMessage where
  from_ : String
  content : String
deriving DecidableEq, Repr

/-- `enum Message { Join(String), Leave(String), Chat(ChatMessage) }` -/
inductive Message where
  | Join : String → Message
  | Leave : String → Message
  | Chat : ChatMessage → Message
deriving DecidableEq, Repr

/-- `Message::join` constructor (chat_room.rs lines 146-148). -/
def Message.join (name : String) : Message := Message.Join name

/-- `Message::leave` constructor (chat_room.rs lines 150-152). -/
def Message.leave (name : String) : Message := Message.Leave name

/-- `Message::chat_message` constructor (chat_room.rs lines 154-159). -/
def Message.chat_message (from_ : String) (content : String) : Message :=
  Message.Chat ⟨from_, content⟩

/-- `impl fmt::Display for Message` (chat_room.rs lines 241-249):
the canonical text rendering of each event. -/
def Message.render : Message → String
  | Message.Join name => name ++ " joined the chat room"
  | Message.Leave name => name ++ " left the chat room"
  | Message.Chat m => m.from_ ++ ": " ++ m.content

/-- One peer's inbound mpsc channel: the FIFO of messages enqueued so
far, plus whether the receiver side has been dropped (`closed`). -/
structure Chan where
  msgs : List Message
  closed : Bool
deriving DecidableEq, Repr

/-- `tokio::sync::mpsc::channel(MAX_MESSAGES)`: a fresh, empty, open
channel. -/
def freshChan : Chan := ⟨[], false⟩

/-- `Sender::send`: enqueue at the back; fails (leaving the channel
unchanged) when the receiver has been dropped. -/
def Chan.send (ch : Chan) (m : Message) : Chan :=
  if ch.closed then ch else { ch with msgs := ch.msgs ++ [m] }

/-- `struct Peer { name, addr, receiver }`.  The receiver end of the
peer's channel is identified by `addr`: in this embedding the queue
contents live in the registry under that key. -/
structure Peer where
  name : String
  addr : Addr
deriving DecidableEq, Repr

/-- `Peer::new(addr, name, receiver)` (chat_room.rs lines 163-169). -/
def Peer.new (addr : Addr) (name : String) : Peer := ⟨name, addr⟩

/-- `struct ChatRoom { peers: DashMap<SocketAddr, Sender<…>> }`,
modelled as an association list keyed by address. -/
structure ChatRoom where
  peers : List (Addr × Chan)
deriving DecidableEq, Repr

/-- `DashMap::get`: look up the first entry with the given key. -/
def lookupPeer (addr : Addr) : List (Addr × Chan) → Option Chan
  | [] => none
  | p :: rest => if p.1 = addr then some p.2 else lookupPeer addr rest

/-- `DashMap::insert`: replace the entry at the key if present,
otherwise add a new entry. -/
def insertPeer (addr : Addr) (ch : Chan) : List (Addr × Chan) → List (Addr × Chan)
  | [] => [(addr, ch)]
  | p :: rest => if p.1 = addr then (addr, ch) :: rest else p :: insertPeer addr ch rest

/-- `DashMap::remove`: drop the entry at the key. -/
def removePeer (addr : Addr) : List (Addr × Chan) → List (Addr × Chan)
  | [] => []
  | p :: rest => if p.1 = addr then rest else p :: removePeer addr rest

/-- The loop body of `ChatRoom::broadcast` (chat_room.rs lines
131-141): walk all registry entries; skip the entry keyed `from_`;
`send` to each other entry; when a send fails (channel closed) log a
warning — recorded here as the failed address — and continue.
Returns the updated entries and the warned addresses. -/
def broadcastList (from_ : Addr) (m : Message) :
    List (Addr × Chan) → List (Addr × Chan) × List Addr
  | [] => ([], [])
  | p :: rest =>
      let r := broadcastList from_ m rest
      if p.1 = from_ then (p :: r.1, r.2)
      else if p.2.closed then (p :: r.1, p.1 :: r.2)
      else ((p.1, p.2.send m) :: r.1, r.2)

/-- `ChatRoom::broadcast` (chat_room.rs lines 130-142).  Total: a
failed delivery is logged (second component) and skipped, never
surfaced as an error to the caller. -/
def ChatRoom.broadcast (room : ChatRoom) (from_ : Addr) (m : Message) :
    ChatRoom × List Addr :=
  let r := broadcastList from_ m room.peers
  (ChatRoom.mk r.1, r.2)

/-- `ChatRoom::join` (chat_room.rs lines 114-120): make a fresh
channel, insert its sender under `addr`, broadcast `Join(name)` from
`addr`, and return the `Peer` holding the receiver end. -/
def ChatRoom.join (room : ChatRoom) (addr : Addr) (name : String) :
    ChatRoom × Peer :=
  let room1 : ChatRoom := ChatRoom.mk (insertPeer addr freshChan room.peers)
  ((room1.broadcast addr (Message.join name)).1, Peer.new addr name)

/-- `ChatRoom::leave` (chat_room.rs lines 122-128): only when `addr`
is registered, remove it and broadcast `Leave(name)` from `addr`. -/
def ChatRoom.leave (room : ChatRoom) (addr : Addr) (name : String) : ChatRoom :=
  if (lookupPeer addr room.peers).isSome then
    let room1 : ChatRoom := ChatRoom.mk (removePeer addr room.peers)
    (room1.broadcast addr (Message.leave name)).1
  else room

/-- Registry invariant: at most one entry per address. -/
def NoDupKeys (l : List (Addr × Chan)) : Prop := (l.map Prod.fst).Nodup

instance (l : List (Addr × Chan)) : Decidable (NoDupKeys l) :=
  List.nodupDecidable (l.map Prod.fst)

/-- The result of one `stream.next().await` on the framed socket:
`Some(Ok(line))`, `Some(Err(e))`, or `None` (connection closed). -/
inductive ReadOutcome where
  | line : String → ReadOutcome
  | rerr : String → ReadOutcome
  | closed : ReadOutcome
deriving DecidableEq, Repr

/-- The name-negotiation phase of `handle_client` (chat_room.rs lines
78-94, up to and including the `join`).  Socket-send outcomes are
passed in (`none` = success, `some e` = I/O error, which `?`
propagates).  Returns the room after the phase and `Except`: an error
for a propagated failure, `ok none` for the silent return when the
connection closed before a name arrived, `ok (some peer)` once the
peer has joined. -/
def handle_client (room : ChatRoom) (addr : Addr) (promptRes : Option String)
    (firstRead : ReadOutcome) (welcomeRes : Option String) :
    ChatRoom × Except String (Option Peer) :=
  match promptRes with
  | some e => (room, Except.error e)
  | none =>
    match firstRead with
    | ReadOutcome.rerr e => (room, Except.error e)
    | ReadOutcome.closed => (room, Except.ok none)
    | ReadOutcome.line name =>
      match welcomeRes with
      | some e => (room, Except.error e)
      | none =>
        let rp := room.join addr name
        (rp.1, Except.ok (some rp.2))

/-- Rust's `char::is_whitespace`: membership in the Unicode
`White_Space` class — HT, LF, VT, FF, CR, space, NEL (U+0085),
NBSP (U+00A0), Ogham space mark (U+1680), the space separators
U+2000–U+200A, line separator (U+2028), paragraph separator (U+2029),
narrow no-break space (U+202F), medium mathematical space (U+205F)
and ideographic space (U+3000). -/
def rustIsWhitespace (c : Char) : Bool :=
  (c.toNat == 0x09) || (c.toNat == 0x0A) || (c.toNat == 0x0B) ||
  (c.toNat == 0x0C) || (c.toNat == 0x0D) || (c.toNat == 0x20) ||
  (c.toNat == 0x85) || (c.toNat == 0xA0) || (c.toNat == 0x1680) ||
  (Nat.ble 0x2000 c.toNat && Nat.ble c.toNat 0x200A) ||
  (c.toNat == 0x2028) || (c.toNat == 0x2029) || (c.toNat == 0x202F) ||
  (c.toNat == 0x205F) || (c.toNat == 0x3000)

/-- Rust's `str::trim` (used at chat_room.rs line 229): the line with
leading and trailing Unicode whitespace (`rustIsWhitespace`) removed.
Defined over the underlying character list so that it is
kernel-computable. -/
def rustTrim (s : String) : String :=
  String.mk (List.reverse (List.dropWhile rustIsWhitespace
    (List.reverse (List.dropWhile rustIsWhitespace s.data))))

/-- `loop_receive_from_client` (chat_room.rs lines 217-239) over an
explicit list of socket-read results (`ok line` for `Some(Ok(line))`,
`error e` for `Some(Err(e))`; the end of the list is stream end).
Returns the final room, the list of messages passed to
`ChatRoom::broadcast` in order, and the loop's `Result`. -/
def loop_receive_from_client (name : String) (addr : Addr) :
    List (Except String String) → ChatRoom →
    ChatRoom × List Message × Except String Unit
  | [], room => (room, [], Except.ok ())
  | Except.error e :: _, room => (room, [], Except.error e)
  | Except.ok rawLine :: rest, room =>
      let line := rustTrim rawLine
      if line.isEmpty then loop_receive_from_client name addr rest room
      else
        let m := Message.chat_message name line
        let room1 := (room.broadcast addr m).1
        let r := loop_receive_from_client name addr rest room1
        (r.1, m :: r.2.1, r.2.2)

/-- What one raw input line contributes to the broadcast stream:
nothing when blank after trimming, one `Chat` message otherwise. -/
def chatOf (name : String) (rawLine : String) : Option Message :=
  if (rustTrim rawLine).isEmpty then none
  else some (Message.chat_message name (rustTrim rawLine))

/-- One iteration's input to the accept loop of `main` (chat_room.rs
lines 58-70): either an accepted connection, whose spawned handler
may later fail (failure is caught and logged in the spawned task), or
a failed `accept`. -/
inductive AcceptEvent where
  | conn : Bool → AcceptEvent
  | acceptErr : String → AcceptEvent
deriving DecidableEq, Repr

/-- Whether an accept-loop event is a failed `accept`. -/
def AcceptEvent.isAcceptErr : AcceptEvent → Bool
  | AcceptEvent.conn _ => false
  | AcceptEvent.acceptErr _ => true

/-- Observable outcome of running the accept loop over a finite
prefix of events: connections accepted, handler failures logged by
the spawned tasks, and `some e` when the loop itself exited with an
error. -/
structure ListenerOutcome where
  accepted : Nat
  handlerWarnings : Nat
  terminated : Option String
deriving DecidableEq, Repr

/-- The accept loop of `main` (chat_room.rs lines 58-70).  Note the
`?` on `listener.accept().await?`: an accept error propagates out of
the loop (terminating `main`), while a handler error is caught inside
the spawned task, logged, and the loop keeps accepting. -/
def runListener : List AcceptEvent → ListenerOutcome
  | [] => ⟨0, 0, none⟩
  | AcceptEvent.acceptErr e :: _ => ⟨0, 0, some e⟩
  | AcceptEvent.conn handlerFails :: rest =>
      let r := runListener rest
      ⟨r.accepted + 1, r.handlerWarnings + (if handlerFails then 1 else 0),
       r.terminated⟩

/-- `main` (chat_room.rs lines 48-71): `TcpListener::bind(addr).await?`
followed by the accept loop; a bind failure propagates immediately. -/
def runMain (bindResult : Except String Unit) (events : List AcceptEvent) :
    ListenerOutcome :=
  match bindResult with
  | Except.error e => ⟨0, 0, some e⟩
  | Except.ok _ => runListener events

/-! ### Registry lemmas -/

theorem lookupPeer_insert_self (addr : Addr) (ch : Chan) (l : List (Addr × Chan)) :
    lookupPeer addr (insertPeer addr ch l) = some ch := by
  induction l with
  | nil => simp [insertPeer, lookupPeer]
  | cons p t ih =>
      by_cases hp : p.1 = addr
      · simp [insertPeer, hp, lookupPeer]
      · simp [insertPeer, hp, lookupPeer, ih]

theorem lookupPeer_insert_other (addr b : Addr) (ch : Chan) (l : List (Addr × Chan))
    (h : addr ≠ b) :
    lookupPeer b (insertPeer addr ch l) = lookupPeer b l := by
  induction l with
  | nil => simp [insertPeer, lookupPeer, h]
  | cons p t ih =>
      by_cases hp : p.1 = addr
      · simp [insertPeer, hp, lookupPeer, h]
      · simp [insertPeer, hp, lookupPeer, ih]

theorem lookupPeer_eq_none_iff (addr : Addr) (l : List (Addr × Chan)) :
    lookupPeer addr l = none ↔ addr ∉ l.map Prod.fst := by
  induction l with
  | nil => simp [lookupPeer]
  | cons p t ih =>
      by_cases hp : p.1 = addr
      · simp [lookupPeer, hp]
      · simp [lookupPeer, hp, ih, Ne.symm hp]

theorem insertPeer_keys_of_isSome (addr : Addr) (ch : Chan) (l : List (Addr × Chan))
    (h : (lookupPeer addr l).isSome = true) :
    (insertPeer addr ch l).map Prod.fst = l.map Prod.fst := by
  induction l with
  | nil => simp [lookupPeer] at h
  | cons p t ih =>
      by_cases hp : p.1 = addr
      · simp [insertPeer, hp]
      · simp [lookupPeer, hp] at h
        simp [insertPeer, hp, ih h]

theorem insertPeer_keys_of_none (addr : Addr) (ch : Chan) (l : List (Addr × Chan))
    (h : lookupPeer addr l = none) :
    (insertPeer addr ch l).map Prod.fst = l.map Prod.fst ++ [addr] := by
  induction l with
  | nil => simp [insertPeer]
  | cons p t ih =>
      by_cases hp : p.1 = addr
      · simp [lookupPeer, hp] at h
      · simp [lookupPeer, hp] at h
        simp [insertPeer, hp, ih h]

theorem removePeer_sublist (addr : Addr) (l : List (Addr × Chan)) :
    (removePeer addr l).Sublist l := by
  induction l with
  | nil => simp [removePeer]
  | cons p t ih =>
      by_cases hp : p.1 = addr
      · simp [removePeer, hp]
      · simp only [removePeer, hp, if_false, List.cons_sublist_cons]
        exact ih

theorem lookupPeer_remove_other (addr b : Addr) (l : List (Addr × Chan))
    (h : addr ≠ b) :
    lookupPeer b (removePeer addr l) = lookupPeer b l := by
  induction l with
  | nil => simp [removePeer]
  | cons p t ih =>
      by_cases hp : p.1 = addr
      · simp [removePeer, hp, lookupPeer, h]
      · simp [removePeer, hp, lookupPeer, ih]

theorem lookupPeer_remove_self (addr : Addr) (l : List (Addr × Chan))
    (h : NoDupKeys l) :
    lookupPeer addr (removePeer addr l) = none := by
  induction l with
  | nil => simp [removePeer, lookupPeer]
  | cons p t ih =>
      unfold NoDupKeys at h
      rw [List.map_cons, List.nodup_cons] at h
      by_cases hp : p.1 = addr
      · have h1 : addr ∉ t.map Prod.fst := by rw [← hp]; exact h.1
        have h2 : lookupPeer addr t = none := (lookupPeer_eq_none_iff addr t).2 h1
        simpa [removePeer, hp] using h2
      · simp [removePeer, hp, lookupPeer, ih h.2]

theorem broadcastList_keys (f : Addr) (m : Message) (l : List (Addr × Chan)) :
    ((broadcastList f m l).1).map Prod.fst = l.map Prod.fst := by
  induction l with
  | nil => simp [broadcastList]
  | cons p t ih =>
      by_cases hp : p.1 = f
      · simp [broadcastList, hp, ih]
      · by_cases hc : p.2.closed
        · simp [broadcastList, hp, hc, ih]
        · simp [broadcastList, hp, hc, ih]

theorem lookupPeer_broadcastList_self (f : Addr) (m : Message) (l : List (Addr × Chan)) :
    lookupPeer f (broadcastList f m l).1 = lookupPeer f l := by
  induction l with
  | nil => simp [broadcastList]
  | cons p t ih =>
      by_cases hp : p.1 = f
      · simp [broadcastList, hp, lookupPeer, ih]
      · by_cases hc : p.2.closed
        · simp [broadcastList, hp, hc, lookupPeer, ih]
        · simp [broadcastList, hp, hc, lookupPeer, ih]

theorem lookupPeer_broadcastList_other (f b : Addr) (m : Message)
    (l : List (Addr × Chan)) (h : ¬ b = f) :
    lookupPeer b (broadcastList f m l).1 =
      (lookupPeer b l).map (fun ch => ch.send m) := by
  induction l with
  | nil => simp [broadcastList, lookupPeer]
  | cons p t ih =>
      have hfb : ¬ f = b := fun q => h q.symm
      by_cases hp : p.1 = f
      · simp [broadcastList, hp, lookupPeer, hfb, ih]
      · by_cases hc : p.2.closed
        · by_cases hb : p.1 = b
          · simp [broadcastList, hp, hc, lookupPeer, hb, h, Chan.send]
          · simp [broadcastList, hp, hc, lookupPeer, hb, h, ih]
        · by_cases hb : p.1 = b
          · simp [broadcastList, hp, hc, lookupPeer, hb, h, Chan.send]
          · simp [broadcastList, hp, hc, lookupPeer, hb, h, ih]

theorem broadcastList_warn (f c : Addr) (m : Message) (l : List (Addr × Chan))
    (ch : Chan) (hcf : ¬ c = f) (hc : lookupPeer c l = some ch)
    (hcl : ch.closed = true) :
    c ∈ (broadcastList f m l).2 := by
  induction l with
  | nil => simp [lookupPeer] at hc
  | cons p t ih =>
      by_cases hpc : p.1 = c
      · have hpf : ¬ p.1 = f := by rw [hpc]; exact hcf
        simp [lookupPeer, hpc] at hc
        have hclosed : p.2.closed = true := by rw [hc]; exact hcl
        simp [broadcastList, hpf, hclosed, hpc, hcf]
      · simp [lookupPeer, hpc] at hc
        by_cases hp : p.1 = f
        · simp [broadcastList, hp, ih hc]
        · by_cases hcc : p.2.closed
          · simp [broadcastList, hp, hcc]
            exact Or.inr (ih hc)
          · simp [broadcastList, hp, hcc, ih hc]

/-! ### Claim theorems -/

/-- C1: `ChatRoom.join` registers a fresh bounded-queue sender under the
joining address, broadcasts `Join(name)` to every other
currently-registered peer (for an empty room there is no one to
broadcast to, so nothing is delivered anywhere), and returns a `Peer`
for that same address, i.e. holding the receiver end matching the
registered sender. -/
theorem C1_join_spec (room : ChatRoom) (addr b : Addr) (name : String) (ch : Chan)
    (hb : b ≠ addr) (hlook : lookupPeer b room.peers = some ch)
    (hopen : ch.closed = false) :
    lookupPeer addr ((room.join addr name).1).peers = some freshChan ∧
    (room.join addr name).2 = Peer.new addr name ∧
    lookupPeer b ((room.join addr name).1).peers =
      some { ch with msgs := ch.msgs ++ [Message.Join name] } ∧
    (ChatRoom.mk []).join addr name =
      (ChatRoom.mk [(addr, freshChan)], Peer.new addr name) := by
  have h1 : lookupPeer addr ((room.join addr name).1).peers = some freshChan := by
    simp [ChatRoom.join, ChatRoom.broadcast, lookupPeer_broadcastList_self,
      lookupPeer_insert_self]
  have h3 : lookupPeer b ((room.join addr name).1).peers =
      some { ch with msgs := ch.msgs ++ [Message.Join name] } := by
    simp [ChatRoom.join, ChatRoom.broadcast,
      lookupPeer_broadcastList_other addr b _ _ hb,
      lookupPeer_insert_other addr b _ _ (Ne.symm hb), hlook, Chan.send, hopen,
      Message.join]
  have h4 : (ChatRoom.mk []).join addr name =
      (ChatRoom.mk [(addr, freshChan)], Peer.new addr name) := by
    simp [ChatRoom.join, ChatRoom.broadcast, insertPeer, broadcastList]
  exact ⟨h1, rfl, h3, h4⟩

/-- C1 witness: in the room where "Alice" (address 1) is registered,
"Bob" joins at address 2: Bob gets a fresh queue, Alice's queue
receives exactly the `Join "Bob"` message, Bob's own queue receives
nothing, and a join on the empty room broadcasts nothing. -/
theorem C1_join_spec_witness :
    ((1 : Addr) ≠ 2 ∧
      lookupPeer 1 (ChatRoom.mk [(1, freshChan)]).peers = some freshChan ∧
      freshChan.closed = false) ∧
    lookupPeer 2 (((ChatRoom.mk [(1, freshChan)]).join 2 "Bob").1).peers =
      some freshChan ∧
    ((ChatRoom.mk [(1, freshChan)]).join 2 "Bob").2 = Peer.new 2 "Bob" ∧
    lookupPeer 1 (((ChatRoom.mk [(1, freshChan)]).join 2 "Bob").1).peers =
      some { freshChan with msgs := freshChan.msgs ++ [Message.Join "Bob"] } ∧
    (ChatRoom.mk []).join 2 "Bob" =
      (ChatRoom.mk [(2, freshChan)], Peer.new 2 "Bob") :=
  ⟨⟨by decide, by decide, by decide⟩,
    C1_join_spec (ChatRoom.mk [(1, freshChan)]) 2 1 "Bob" freshChan
      (by decide) (by decide) (by decide)⟩

/-- C2: `ChatRoom.broadcast from_ m` delivers `m` to the queue of
every registered peer other than `from_` (any open channel at another
address receives exactly `m` appended), while the entry registered
under `from_` itself is left untouched — a peer never receives a
broadcast of its own `Chat` or `Join` event. -/
theorem C2_broadcast_spec (room : ChatRoom) (from_ b : Addr) (m : Message)
    (ch : Chan) (hb : b ≠ from_) (hlook : lookupPeer b room.peers = some ch)
    (hopen : ch.closed = false) :
    lookupPeer from_ ((room.broadcast from_ m).1).peers =
      lookupPeer from_ room.peers ∧
    lookupPeer b ((room.broadcast from_ m).1).peers =
      some { ch with msgs := ch.msgs ++ [m] } := by
  constructor
  · simp [ChatRoom.broadcast, lookupPeer_broadcastList_self]
  · simp [ChatRoom.broadcast, lookupPeer_broadcastList_other from_ b m _ hb,
      hlook, Chan.send, hopen]

/-- C2 witness: with peers at addresses 1 and 2, a broadcast from 1
leaves 1's queue unchanged and appends the message to 2's queue. -/
theorem C2_broadcast_spec_witness :
    ((2 : Addr) ≠ 1 ∧
      lookupPeer 2 (ChatRoom.mk [(1, freshChan), (2, freshChan)]).peers =
        some freshChan ∧
      freshChan.closed = false) ∧
    lookupPeer 1
        (((ChatRoom.mk [(1, freshChan), (2, freshChan)]).broadcast 1
          (Message.chat_message "Alice" "hello")).1).peers =
      lookupPeer 1 (ChatRoom.mk [(1, freshChan), (2, freshChan)]).peers ∧
    lookupPeer 2
        (((ChatRoom.mk [(1, freshChan), (2, freshChan)]).broadcast 1
          (Message.chat_message "Alice" "hello")).1).peers =
      some { freshChan with
        msgs := freshChan.msgs ++ [Message.chat_message "Alice" "hello"] } :=
  ⟨⟨by decide, by decide, by decide⟩,
    C2_broadcast_spec (ChatRoom.mk [(1, freshChan), (2, freshChan)]) 1 2
      (Message.chat_message "Alice" "hello") freshChan
      (by decide) (by decide) (by decide)⟩

/-- C3: `ChatRoom.leave` is a silent no-op when the address is absent;
when present it removes the address and broadcasts `Leave(name)` to
every remaining open peer; and it is idempotent — the second of two
successive leaves for the same address is the identity, so at most one
`Leave` broadcast is produced and no error arises. -/
theorem C3_leave_spec (room : ChatRoom) (addr b : Addr) (name : String) (ch : Chan)
    (hnodup : NoDupKeys room.peers) :
    (lookupPeer addr room.peers = none → room.leave addr name = room) ∧
    ((lookupPeer addr room.peers).isSome = true →
        lookupPeer addr (room.leave addr name).peers = none ∧
        (b ≠ addr → lookupPeer b room.peers = some ch → ch.closed = false →
          lookupPeer b (room.leave addr name).peers =
            some { ch with msgs := ch.msgs ++ [Message.Leave name] })) ∧
    (room.leave addr name).leave addr name = room.leave addr name := by
  refine ⟨?_, ?_, ?_⟩
  · intro h
    simp [ChatRoom.leave, h]
  · intro hs
    have hrem : lookupPeer addr (removePeer addr room.peers) = none :=
      lookupPeer_remove_self addr room.peers hnodup
    constructor
    · simp [ChatRoom.leave, hs, ChatRoom.broadcast,
        lookupPeer_broadcastList_self, hrem]
    · intro hba hlb hopen
      simp [ChatRoom.leave, hs, ChatRoom.broadcast,
        lookupPeer_broadcastList_other addr b _ _ hba,
        lookupPeer_remove_other addr b _ (Ne.symm hba), hlb, Chan.send, hopen,
        Message.leave]
  · by_cases hs : (lookupPeer addr room.peers).isSome = true
    · have hrem : lookupPeer addr (removePeer addr room.peers) = none :=
        lookupPeer_remove_self addr room.peers hnodup
      have hafter : lookupPeer addr (room.leave addr name).peers = none := by
        simp [ChatRoom.leave, hs, ChatRoom.broadcast,
          lookupPeer_broadcastList_self, hrem]
      conv_lhs => rw [ChatRoom.leave]
      simp [hafter]
    · have hnone : lookupPeer addr room.peers = none := by
        cases hh : lookupPeer addr room.peers
        · rfl
        · rw [hh] at hs; simp at hs
      simp [ChatRoom.leave, hnone]

/-- C3 witness: with peers 1 ("Alice") and 2, leaving address 1 twice
equals leaving it once. -/
theorem C3_leave_spec_witness :
    NoDupKeys (ChatRoom.mk [(1, freshChan), (2, freshChan)]).peers ∧
    ((ChatRoom.mk [(1, freshChan), (2, freshChan)]).leave 1 "Alice").leave 1 "Alice" =
      (ChatRoom.mk [(1, freshChan), (2, freshChan)]).leave 1 "Alice" :=
  ⟨by decide,
    (C3_leave_spec (ChatRoom.mk [(1, freshChan), (2, freshChan)]) 1 2 "Alice"
      freshChan (by decide)).2.2⟩

/-- C4: during `ChatRoom.broadcast`, a recipient whose receiver queue
is closed is skipped with its queue state unchanged and its address
logged as a warning, delivery still reaches every other open
registered peer, and `broadcast` (a total function here, mirroring the
Rust function that returns `()` rather than a `Result`) completes
normally instead of propagating the failure. -/
theorem C4_broadcast_failure_skipped (room : ChatRoom) (from_ c b : Addr)
    (m : Message) (chc chb : Chan) (hcf : c ≠ from_) (hbf : b ≠ from_)
    (hc : lookupPeer c room.peers = some chc) (hclosed : chc.closed = true)
    (hb : lookupPeer b room.peers = some chb) (hopen : chb.closed = false) :
    lookupPeer c ((room.broadcast from_ m).1).peers = some chc ∧
    c ∈ (room.broadcast from_ m).2 ∧
    lookupPeer b ((room.broadcast from_ m).1).peers =
      some { chb with msgs := chb.msgs ++ [m] } := by
  refine ⟨?_, ?_, ?_⟩
  · simp [ChatRoom.broadcast, lookupPeer_broadcastList_other from_ c m _ hcf,
      hc, Chan.send, hclosed]
  · simpa [ChatRoom.broadcast] using
      broadcastList_warn from_ c m room.peers chc hcf hc hclosed
  · simp [ChatRoom.broadcast, lookupPeer_broadcastList_other from_ b m _ hbf,
      hb, Chan.send, hopen]

/-- C4 witness: broadcasting from address 1 in a room where address
2's queue is closed and address 3's is open: 2 is skipped and warned
about, 3 still receives the message. -/
theorem C4_broadcast_failure_skipped_witness :
    ((2 : Addr) ≠ 1 ∧ (3 : Addr) ≠ 1 ∧
      lookupPeer 2 (ChatRoom.mk
        [(1, freshChan), (2, Chan.mk [] true), (3, freshChan)]).peers =
        some (Chan.mk [] true) ∧
      (Chan.mk [] true).closed = true ∧
      lookupPeer 3 (ChatRoom.mk
        [(1, freshChan), (2, Chan.mk [] true), (3, freshChan)]).peers =
        some freshChan ∧
      freshChan.closed = false) ∧
    lookupPeer 2 (((ChatRoom.mk
        [(1, freshChan), (2, Chan.mk [] true), (3, freshChan)]).broadcast 1
          (Message.Leave "x")).1).peers = some (Chan.mk [] true) ∧
    2 ∈ ((ChatRoom.mk
        [(1, freshChan), (2, Chan.mk [] true), (3, freshChan)]).broadcast 1
          (Message.Leave "x")).2 ∧
    lookupPeer 3 (((ChatRoom.mk
        [(1, freshChan), (2, Chan.mk [] true), (3, freshChan)]).broadcast 1
          (Message.Leave "x")).1).peers =
      some { freshChan with msgs := freshChan.msgs ++ [Message.Leave "x"] } :=
  ⟨⟨by decide, by decide, by decide, by decide, by decide, by decide⟩,
    C4_broadcast_failure_skipped
      (ChatRoom.mk [(1, freshChan), (2, Chan.mk [] true), (3, freshChan)])
      1 2 3 (Message.Leave "x") (Chan.mk [] true) freshChan
      (by decide) (by decide) (by decide) (by decide) (by decide) (by decide)⟩

/-- C5 counterexample: the claim says the listener loop survives a
single accept failure and continues accepting indefinitely, with only
bind failures fatal.  In `main` the accept call carries the
error-propagation operator, so after one failed accept the loop
terminates with that error and the next pending connection is never
accepted. -/
theorem C5_accept_failure_counterexample :
    (runMain (Except.ok ())
        [AcceptEvent.acceptErr "connection reset",
         AcceptEvent.conn false]).accepted = 0 ∧
    (runMain (Except.ok ())
        [AcceptEvent.acceptErr "connection reset",
         AcceptEvent.conn false]).terminated = some "connection reset" :=
  ⟨rfl, rfl⟩

/-- C5 (amended): the listener loop survives per-connection-handler
failures — a failing handler is only logged by its spawned task and
the loop accepts every connection of any accept-error-free event
sequence without terminating — while a bind failure terminates `main`
at startup and an accept failure terminates the loop as well. -/
theorem C5_listener_spec (events : List AcceptEvent)
    (h : ∀ e ∈ events, e.isAcceptErr = false) :
    (runMain (Except.ok ()) events).terminated = none ∧
    (runMain (Except.ok ()) events).accepted = events.length ∧
    (∀ (msg : String) (evs : List AcceptEvent),
        runMain (Except.error msg) evs = ⟨0, 0, some msg⟩) ∧
    (∀ (msg : String) (evs : List AcceptEvent),
        runListener (AcceptEvent.acceptErr msg :: evs) = ⟨0, 0, some msg⟩) := by
  have key : ∀ es : List AcceptEvent, (∀ e ∈ es, e.isAcceptErr = false) →
      (runListener es).terminated = none ∧
      (runListener es).accepted = es.length := by
    intro es
    induction es with
    | nil => intro _; exact ⟨rfl, rfl⟩
    | cons e t ih =>
        intro hall
        cases e with
        | conn hf =>
            have ht := ih (fun x hx => hall x (List.mem_cons_of_mem _ hx))
            simp [runListener, ht.1, ht.2]
        | acceptErr s =>
            have hcontra := hall (AcceptEvent.acceptErr s) (List.mem_cons_self _ _)
            simp [AcceptEvent.isAcceptErr] at hcontra
  exact ⟨(key events h).1, (key events h).2,
    fun msg evs => rfl, fun msg evs => rfl⟩

/-- C5 witness: two accepted connections, the first of which has a
failing handler: the loop accepts both and does not terminate. -/
theorem C5_listener_spec_witness :
    (∀ e ∈ [AcceptEvent.conn true, AcceptEvent.conn false],
        e.isAcceptErr = false) ∧
    (runMain (Except.ok ())
        [AcceptEvent.conn true, AcceptEvent.conn false]).terminated = none ∧
    (runMain (Except.ok ())
        [AcceptEvent.conn true, AcceptEvent.conn false]).accepted = 2 :=
  ⟨by decide,
    (C5_listener_spec [AcceptEvent.conn true, AcceptEvent.conn false]
      (by decide)).1,
    (C5_listener_spec [AcceptEvent.conn true, AcceptEvent.conn false]
      (by decide)).2.1⟩

/-- C6: in name negotiation, a connection that closes before a name
line arrives makes the handler return successfully with the room
unchanged (no join registered, no error surfaced), while a transport
error on the name read makes the handler return that error, again
with the room unchanged (no join registered). -/
theorem C6_name_negotiation (room : ChatRoom) (addr : Addr) (e : String) :
    handle_client room addr none ReadOutcome.closed none =
      (room, Except.ok none) ∧
    handle_client room addr none (ReadOutcome.rerr e) none =
      (room, Except.error e) :=
  ⟨rfl, rfl⟩

/-- C7: over any error-free stream of input lines, the messages the
receive loop hands to `ChatRoom.broadcast` are exactly one
`Chat(name, trimmed line)` per line that is non-blank after trimming —
blank lines contribute nothing; moreover processing a single blank
line returns with the room unchanged, an empty broadcast list, and a
success result. -/
theorem C7_receive_loop_broadcasts (name : String) (addr : Addr) :
    (∀ (lines : List String) (room : ChatRoom),
        (loop_receive_from_client name addr (lines.map Except.ok) room).2.1 =
          lines.filterMap (chatOf name)) ∧
    (∀ (rawLine : String) (room : ChatRoom), (rustTrim rawLine).isEmpty = true →
        loop_receive_from_client name addr [Except.ok rawLine] room =
          (room, [], Except.ok ())) := by
  constructor
  · intro lines
    induction lines with
    | nil => intro room; simp [loop_receive_from_client]
    | cons l t ih =>
        intro room
        by_cases hb : (rustTrim l).isEmpty
        · simp [loop_receive_from_client, hb, chatOf, ih]
        · simp [loop_receive_from_client, hb, chatOf, ih]
  · intro rawLine room hblank
    simp [loop_receive_from_client, hblank]

/-- C7 witness: the stream "hello", " \x0C ", "hi" broadcasts exactly
the two non-blank chats (the middle line, space/form-feed/space, is
blank after trimming); a lone form-feed line broadcasts nothing and
leaves the room unchanged. -/
theorem C7_receive_loop_broadcasts_witness :
    (loop_receive_from_client "Alice" 1
        (["hello", " \x0C ", "hi"].map Except.ok)
        (ChatRoom.mk [(2, freshChan)])).2.1 =
      ["hello", " \x0C ", "hi"].filterMap (chatOf "Alice") ∧
    ((rustTrim "\x0C").isEmpty = true ∧
      loop_receive_from_client "Alice" 1 [Except.ok "\x0C"]
          (ChatRoom.mk [(2, freshChan)]) =
        (ChatRoom.mk [(2, freshChan)], [], Except.ok ())) :=
  ⟨(C7_receive_loop_broadcasts "Alice" 1).1 ["hello", " \x0C ", "hi"]
      (ChatRoom.mk [(2, freshChan)]),
    ⟨by decide,
      (C7_receive_loop_broadcasts "Alice" 1).2 "\x0C"
        (ChatRoom.mk [(2, freshChan)]) (by decide)⟩⟩

/-- C8: the render-to-text function on `Message` produces exactly
"name joined the chat room" for `Join(name)`, "name left the chat
room" for `Leave(name)`, and "from: content" for
`Chat(from, content)`, for every name, from and content. -/
theorem C8_render_spec (name from_ content : String) :
    (Message.Join name).render = name ++ " joined the chat room" ∧
    (Message.Leave name).render = name ++ " left the chat room" ∧
    (Message.Chat ⟨from_, content⟩).render = from_ ++ ": " ++ content :=
  ⟨rfl, rfl, rfl⟩

/-- C9: for a non-blank input line, the `Chat` message the receive
loop broadcasts carries the line with leading and trailing whitespace
removed, not the raw line as received. -/
theorem C9_chat_content_trimmed (name : String) (addr : Addr) (room : ChatRoom)
    (rawLine : String) (rest : List (Except String String))
    (h : (rustTrim rawLine).isEmpty = false) :
    ((loop_receive_from_client name addr (Except.ok rawLine :: rest)
        room).2.1).head? =
      some (Message.chat_message name (rustTrim rawLine)) := by
  simp [loop_receive_from_client, h]

/-- C9 witness: the raw line " a\x0C" (leading space, trailing form
feed) is broadcast as `Chat("Alice", "a")` — trimmed of Unicode
whitespace on both ends and different from the raw line. -/
theorem C9_chat_content_trimmed_witness :
    ((rustTrim " a\x0C").isEmpty = false) ∧
    ((loop_receive_from_client "Alice" 1 [Except.ok " a\x0C"]
        (ChatRoom.mk [(2, freshChan)])).2.1).head? =
      some (Message.chat_message "Alice" (rustTrim " a\x0C")) ∧
    rustTrim " a\x0C" = "a" ∧ rustTrim " a\x0C" ≠ " a\x0C" :=
  ⟨by decide,
    C9_chat_content_trimmed "Alice" 1 (ChatRoom.mk [(2, freshChan)])
      " a\x0C" [] (by decide),
    by decide, by decide⟩

/-- C10: joining at an address already present in the registry does
not fail and does not duplicate the entry: the registry size is
unchanged and the address now maps to the fresh queue, so any later
broadcast from elsewhere lands in the fresh queue while the replaced
queue is no longer reachable from the registry; and `join`, `leave`
and `broadcast` all preserve the at-most-one-entry-per-address
invariant. -/
theorem C10_join_existing (room : ChatRoom) (addr : Addr) (name : String)
    (ch : Chan) (hnodup : NoDupKeys room.peers)
    (hmem : lookupPeer addr room.peers = some ch) :
    ((room.join addr name).1).peers.length = room.peers.length ∧
    lookupPeer addr ((room.join addr name).1).peers = some freshChan ∧
    (∀ (g : Addr) (m : Message), ¬ g = addr →
        lookupPeer addr ((((room.join addr name).1).broadcast g m).1).peers =
          some (freshChan.send m)) ∧
    (∀ (a : Addr) (n : String), NoDupKeys ((room.join a n).1).peers) ∧
    (∀ (a : Addr) (n : String), NoDupKeys (room.leave a n).peers) ∧
    (∀ (f : Addr) (m : Message), NoDupKeys ((room.broadcast f m).1).peers) := by
  have hsome : (lookupPeer addr room.peers).isSome = true := by
    rw [hmem]; rfl
  have hkeys : ((room.join addr name).1).peers.map Prod.fst =
      room.peers.map Prod.fst := by
    simp [ChatRoom.join, ChatRoom.broadcast, broadcastList_keys]
    exact insertPeer_keys_of_isSome addr freshChan room.peers hsome
  have hfreshAt : lookupPeer addr ((room.join addr name).1).peers =
      some freshChan := by
    simp [ChatRoom.join, ChatRoom.broadcast, lookupPeer_broadcastList_self,
      lookupPeer_insert_self]
  refine ⟨?_, hfreshAt, ?_, ?_, ?_, ?_⟩
  · have hlen := congrArg List.length hkeys
    simpa using hlen
  · intro g m hg
    have hag : ¬ addr = g := fun q => hg q.symm
    simp [ChatRoom.broadcast, lookupPeer_broadcastList_other g addr m _ hag,
      hfreshAt]
  · intro a n
    unfold NoDupKeys
    have hk : ((room.join a n).1).peers.map Prod.fst =
        (insertPeer a freshChan room.peers).map Prod.fst := by
      simp [ChatRoom.join, ChatRoom.broadcast, broadcastList_keys]
    rw [hk]
    by_cases hs : (lookupPeer a room.peers).isSome = true
    · rw [insertPeer_keys_of_isSome a freshChan room.peers hs]
      exact hnodup
    · have hnone : lookupPeer a room.peers = none := by
        cases hh : lookupPeer a room.peers
        · rfl
        · rw [hh] at hs; simp at hs
      rw [insertPeer_keys_of_none a freshChan room.peers hnone]
      have hnotmem : a ∉ room.peers.map Prod.fst :=
        (lookupPeer_eq_none_iff a room.peers).1 hnone
      refine List.Nodup.append hnodup (List.nodup_singleton a) ?_
      intro x hx hx1
      rw [List.mem_singleton] at hx1
      exact hnotmem (hx1 ▸ hx)
  · intro a n
    by_cases hs : (lookupPeer a room.peers).isSome = true
    · unfold NoDupKeys
      have hk : (room.leave a n).peers.map Prod.fst =
          (removePeer a room.peers).map Prod.fst := by
        simp [ChatRoom.leave, hs, ChatRoom.broadcast, broadcastList_keys]
      rw [hk]
      exact List.Nodup.sublist
        (List.Sublist.map Prod.fst (removePeer_sublist a room.peers)) hnodup
    · simpa [ChatRoom.leave, hs] using hnodup
  · intro f m
    unfold NoDupKeys
    have hk : ((room.broadcast f m).1).peers.map Prod.fst =
        room.peers.map Prod.fst := by
      simp [ChatRoom.broadcast, broadcastList_keys]
    rw [hk]
    exact hnodup

/-- C10 witness: re-joining address 1, which already holds a non-empty
queue, keeps the registry at one entry, installs the fresh queue, and
a later broadcast from address 2 lands in that fresh queue. -/
theorem C10_join_existing_witness :
    (NoDupKeys (ChatRoom.mk [(1, Chan.mk [Message.Join "x"] false)]).peers ∧
      lookupPeer 1 (ChatRoom.mk [(1, Chan.mk [Message.Join "x"] false)]).peers =
        some (Chan.mk [Message.Join "x"] false)) ∧
    (((ChatRoom.mk [(1, Chan.mk [Message.Join "x"] false)]).join 1
        "Ann").1).peers.length = 1 ∧
    lookupPeer 1 ((((ChatRoom.mk [(1, Chan.mk [Message.Join "x"] false)]).join 1
        "Ann").1)).peers = some freshChan ∧
    lookupPeer 1 (((((ChatRoom.mk
        [(1, Chan.mk [Message.Join "x"] false)]).join 1 "Ann").1).broadcast 2
          (Message.Leave "y")).1).peers =
      some (freshChan.send (Message.Leave "y")) :=
  ⟨⟨by decide, by decide⟩,
    (C10_join_existing (ChatRoom.mk [(1, Chan.mk [Message.Join "x"] false)]) 1
      "Ann" (Chan.mk [Message.Join "x"] false) (by decide) (by decide)).1,
    (C10_join_existing (ChatRoom.mk [(1, Chan.mk [Message.Join "x"] false)]) 1
      "Ann" (Chan.mk [Message.Join "x"] false) (by decide) (by decide)).2.1,
    (C10_join_existing (ChatRoom.mk [(1, Chan.mk [Message.Join "x"] false)]) 1
      "Ann" (Chan.mk [Message.Join "x"] false) (by decide) (by decide)).2.2.1 2
      (Message.Leave "y") (by decide)⟩
